import Mathlib

/-!
Verification development for the wallpapers backend (src/main.py).

The file shallowly embeds the watermark pipeline of the service:
the URL loader `_load_image_from_url`, the compositor `_apply_watermark`
and the endpoint handler `watermark_image`.  Pixel buffers are grids of
RGBA values, machine integers become `Nat`/`Int`, the network fetch,
the image decoder and the font rasterizer are oracles passed in as
parameters (they are external collaborators of the repository), and the
drawing calls of the compositor are modelled both as an explicit trace
of draw commands and as executable pixel-level operations.
-/

set_option autoImplicit false

namespace Wallpapers

/-- Pixel with red, green, blue and alpha channels, each a byte value. -/
structure RGBA where
  r : Nat
  g : Nat
  b : Nat
  a : Nat
deriving DecidableEq, Repr

/-- Image mode as PIL tracks it; the pipeline only meets RGBA and RGB. -/
inductive Mode where
  | RGBA
  | RGB
deriving DecidableEq, Repr

/-- Pixel grid: a list of `height` rows, each a list of `width` pixels. -/
abbrev Grid := List (List RGBA)

/-- Decoded image buffer: mode, size and pixel grid (PIL `Image.Image`). -/
structure PILImage where
  mode : Mode
  width : Nat
  height : Nat
  px : Grid
deriving DecidableEq, Repr

/-- Well-formedness of a buffer: the grid really is `height` rows of
`width` pixels each. -/
def PILImage.wfb (img : PILImage) : Bool :=
  img.px.length == img.height &&
    img.px.all (fun row => row.length == img.width)

/-- Buffer copy, the embedding of `img.copy()` on line 82: value
semantics make it the identity on the buffer value. -/
def PILImage.copy (img : PILImage) : PILImage := img

/-- Grid of `h` rows of `w` copies of a pixel, the embedding of
`Image.new("RGBA", (width, height), fill)`. -/
def mkGrid (w h : Nat) (c : RGBA) : Grid :=
  List.replicate h (List.replicate w c)

/-- Map over a list together with the element index, starting at `n`. -/
def mapWithIdx {α β : Type} (f : Nat → α → β) : List α → Nat → List β
  | [], _ => []
  | a :: as, n => f n a :: mapWithIdx f as (n + 1)

/-- Pointwise update of a grid, giving the update function the column
index `i` and row index `j` of each pixel. -/
def gridMap (f : Nat → Nat → RGBA → RGBA) (g : Grid) : Grid :=
  mapWithIdx (fun j row => mapWithIdx (fun i p => f i j p) row 0) g 0

/-- Selected font: either the DejaVuSans truetype face at a pixel size,
or the PIL built-in default font (`ImageFont.load_default()`). -/
inductive Font where
  | truetype (size : Nat)
  | dflt
deriving DecidableEq, Repr

/-- Font environment: whether `ImageFont.truetype("DejaVuSans.ttf", _)`
succeeds, the text bounding box `draw.textbbox((0, 0), text, font)`, and
the glyph coverage of the rasterizer (`cover f s dx dy` says whether the
glyphs of `s` cover the pixel at offset `(dx, dy)` from the text
origin).  These are external to the repository, so they are oracle
parameters of the model. -/
structure FontEnv where
  truetypeOk : Bool
  bbox : Font → String → Int × Int × Int × Int
  cover : Font → String → Int → Int → Bool

/-- Font selection of lines 87-90: try the truetype face, fall back to
the default font when it is unavailable. -/
def pickFont (fe : FontEnv) (size : Nat) : Font :=
  if fe.truetypeOk then Font.truetype size else Font.dflt

/-- Font size of line 86: `font_size = max(24, width // 40)`. -/
def font_size (width : Nat) : Nat := max 24 (width / 40)

/-- Text padding of line 92: `text_padding = max(12, font_size // 3)`. -/
def text_padding (fs : Nat) : Nat := max 12 (fs / 3)

/-- Horizontal plate padding of line 102: `bg_padding_x = text_padding // 2`. -/
def bg_padding_x (pad : Nat) : Nat := pad / 2

/-- Vertical plate padding of line 103: `bg_padding_y = text_padding // 3`. -/
def bg_padding_y (pad : Nat) : Nat := pad / 3

/-- Shadow offset of line 113: `shadow_offset = max(1, font_size // 20)`. -/
def shadow_offset (fs : Nat) : Nat := max 1 (fs / 20)

/-- Measured text width of line 96: `text_bbox[2] - text_bbox[0]`. -/
def text_w (bbox : Int × Int × Int × Int) : Int := bbox.2.2.1 - bbox.1

/-- Measured text height of line 97: `text_bbox[3] - text_bbox[1]`. -/
def text_h (bbox : Int × Int × Int × Int) : Int := bbox.2.2.2 - bbox.2.1

/-- Horizontal anchor of line 98: `x = width - text_w - text_padding`. -/
def anchor_x (width : Nat) (tw : Int) (pad : Nat) : Int :=
  (width : Int) - tw - (pad : Int)

/-- Vertical anchor of line 99: `y = height - text_h - text_padding`. -/
def anchor_y (height : Nat) (th : Int) (pad : Nat) : Int :=
  (height : Int) - th - (pad : Int)

/-- Drawing command issued against the watermark overlay layer: a filled
rectangle (`draw.rectangle`) or a text draw (`draw.text`). -/
inductive DrawOp where
  | rect (coords : Int × Int × Int × Int) (fill : RGBA)
  | text (pos : Int × Int) (s : String) (font : Font) (fill : RGBA)
deriving DecidableEq, Repr

/-- Trace of the drawing calls `_apply_watermark` issues on the overlay
layer (lines 86-115 of src/main.py), in order: the background plate,
the shadow text, the label text. -/
def applyWatermarkOps (fe : FontEnv) (width height : Nat) (text : String) :
    List DrawOp :=
  let fs := font_size width
  let font := pickFont fe fs
  let pad := text_padding fs
  let bbox := fe.bbox font text
  let tw := text_w bbox
  let th := text_h bbox
  let x := anchor_x width tw pad
  let y := anchor_y height th pad
  let bpx := bg_padding_x pad
  let bpy := bg_padding_y pad
  [DrawOp.rect (x - bpx, y - bpy, x + tw + bpx, y + th + bpy) ⟨0, 0, 0, 90⟩,
   DrawOp.text (x + shadow_offset fs, y + shadow_offset fs) text font ⟨0, 0, 0, 200⟩,
   DrawOp.text (x, y) text font ⟨255, 255, 255, 220⟩]

/-- Effect of one drawing command on a buffer.  A filled rectangle sets
every in-bounds pixel whose coordinates lie between the two corners
(inclusive, as PIL draws it); a text draw sets every in-bounds pixel the
glyph rasterization covers.  Pixels outside the grid are clipped away by
the grid itself. -/
def execDrawOp (fe : FontEnv) (img : PILImage) : DrawOp → PILImage
  | DrawOp.rect (x0, y0, x1, y1) c =>
      { img with px := gridMap (fun i j p =>
          if x0 ≤ (i : Int) ∧ (i : Int) ≤ x1 ∧ y0 ≤ (j : Int) ∧ (j : Int) ≤ y1
          then c else p) img.px }
  | DrawOp.text (tx, ty) s font c =>
      { img with px := gridMap (fun i j p =>
          if fe.cover font s ((i : Int) - tx) ((j : Int) - ty)
          then c else p) img.px }

/-- Alpha-over blend of one overlay pixel `fg` onto a base pixel `bg`,
per channel `out = fg*fgAlpha + bg*(1-fgAlpha)` with byte arithmetic:
the standard straight-alpha over operator `Image.alpha_composite` uses. -/
def alphaOver (bg fg : RGBA) : RGBA :=
  let fa := fg.a
  { r := (fg.r * fa + bg.r * (255 - fa)) / 255
    g := (fg.g * fa + bg.g * (255 - fa)) / 255
    b := (fg.b * fa + bg.b * (255 - fa)) / 255
    a := fa + bg.a * (255 - fa) / 255 }

/-- Embedding of `Image.alpha_composite(base, overlay)`: both images
must be RGBA and of the same size, otherwise PIL raises (modelled as
`none`); on success the overlay is blended over the base pixelwise. -/
def alphaComposite (base overlay : PILImage) : Option PILImage :=
  if base.mode = Mode.RGBA ∧ overlay.mode = Mode.RGBA ∧
      base.width = overlay.width ∧ base.height = overlay.height then
    some { mode := Mode.RGBA, width := base.width, height := base.height,
           px := List.zipWith (List.zipWith alphaOver) base.px overlay.px }
  else none

/-- Embedding of `.convert("RGB")` on line 118: the alpha channel is
dropped (every stored alpha becomes fully opaque) and the mode becomes
RGB. -/
def convert_RGB (img : PILImage) : PILImage :=
  { mode := Mode.RGB, width := img.width, height := img.height,
    px := img.px.map (fun row => row.map (fun p => { p with a := 255 })) }

/-- Embedding of `.convert("RGBA")` on line 72: the mode becomes RGBA;
a source without an alpha channel gets an opaque one. -/
def convertRGBA (img : PILImage) : PILImage :=
  { mode := Mode.RGBA, width := img.width, height := img.height,
    px := img.px.map (fun row => row.map (fun p =>
      if img.mode = Mode.RGB then { p with a := 255 } else p)) }

/-- Embedding of `_apply_watermark` (lines 80-118): copy the input,
build a transparent RGBA overlay of the same size, run the three
drawing commands on it, alpha-composite the overlay over the copy and
flatten to RGB.  The `none` case is PIL raising inside
`alpha_composite`. -/
def applyWatermark (fe : FontEnv) (img : PILImage) (text : String) :
    Option PILImage :=
  let width := img.width
  let height := img.height
  let base := img.copy
  let layer0 : PILImage :=
    { mode := Mode.RGBA, width := width, height := height,
      px := mkGrid width height ⟨0, 0, 0, 0⟩ }
  let layer := (applyWatermarkOps fe width height text).foldl (execDrawOp fe) layer0
  (alphaComposite base layer).map convert_RGB

/-- Raw byte payload of an HTTP response body. -/
abbrev Bytes := List Nat

/-- Outcome of `requests.get(url, timeout=10)`: a response with a status
code and body, or a raised network exception. -/
inductive FetchResult where
  | success (status : Nat) (content : Bytes)
  | failure
deriving DecidableEq, Repr

/-- Error surfaced to the HTTP layer (`HTTPException(status, detail)`). -/
structure HttpError where
  status : Nat
  detail : String
deriving DecidableEq, Repr

/-- Character class CPython urlparse accepts inside a scheme: ASCII
letters, digits, and the three characters plus, minus, dot. -/
def schemeChar (c : Char) : Bool :=
  c.isAlphanum || c = '+' || c = '-' || c = '.'

/-- Split a character list at its first colon, when one exists. -/
def splitAtColon : List Char → Option (List Char × List Char)
  | [] => none
  | c :: rest =>
      if c = ':' then some ([], rest)
      else
        match splitAtColon rest with
        | some (pre, post) => some (c :: pre, post)
        | none => none

/-- Scheme extraction of `urllib.parse.urlparse(url).scheme`: the text
before the first colon, lowercased, provided it is nonempty, starts
with an ASCII letter and uses only scheme characters; otherwise the
scheme is empty. -/
def urlScheme (url : String) : String :=
  match splitAtColon url.toList with
  | some (pre, _) =>
      match pre with
      | [] => ""
      | c :: rest =>
          if c.isAlpha && (c :: rest).all schemeChar then
            String.mk ((c :: rest).map Char.toLower)
          else ""
  | none => ""

/-- Result of the loader together with whether the network fetch was
ever attempted. -/
structure LoadOutcome where
  result : Except HttpError PILImage
  fetched : Bool
deriving Repr

/-- Embedding of `_load_image_from_url` (lines 64-77), parametrized by
the network (`fetch`, for `requests.get`) and the decoder (`decode`,
for `Image.open`; `none` is a decode exception).  A non-http(s) scheme
raises `ValueError` before the fetch, which the generic handler turns
into a 400; a non-200 status raises the dedicated 400; any other
failure becomes the generic 400.  The `fetched` flag records whether
`fetch` was consulted. -/
def loadImageFromUrl (fetch : String → FetchResult)
    (decode : Bytes → Option PILImage) (url : String) : LoadOutcome :=
  if urlScheme url = "http" ∨ urlScheme url = "https" then
    match fetch url with
    | FetchResult.failure =>
        ⟨Except.error ⟨400, "Unable to load image from URL"⟩, true⟩
    | FetchResult.success status content =>
        if status ≠ 200 then
          ⟨Except.error ⟨400, "Failed to fetch source image"⟩, true⟩
        else
          match decode content with
          | none => ⟨Except.error ⟨400, "Unable to load image from URL"⟩, true⟩
          | some img => ⟨Except.ok (convertRGBA img), true⟩
  else
    ⟨Except.error ⟨400, "Unable to load image from URL"⟩, false⟩

/-- Default watermark label of lines 80 and 125. -/
def default_text : String := "made by afthab"

/-- Embedding of line 125, `wm_text = text if text else "made by
afthab"`: Python truthiness replaces both an absent parameter and an
empty string by the default label. -/
def wm_text (text : Option String) : String :=
  match text with
  | none => default_text
  | some s => if s = "" then default_text else s

/-- Embedding of the `watermark_image` endpoint body (lines 121-132) up
to JPEG serialization: load the image, choose the label text, apply the
watermark.  A failure inside the compositor would escape the handler as
an unhandled exception, which the framework reports as a 500. -/
def watermark_image (fetch : String → FetchResult)
    (decode : Bytes → Option PILImage) (fe : FontEnv)
    (url : String) (text : Option String) : Except HttpError PILImage :=
  match (loadImageFromUrl fetch decode url).result with
  | Except.error e => Except.error e
  | Except.ok img =>
      match applyWatermark fe img (wm_text text) with
      | some out => Except.ok out
      | none => Except.error ⟨500, "Internal Server Error"⟩

/-- Store of live image buffers, addressed by allocation index. -/
abbrev Heap := List PILImage

/-- Replay of the drawing commands against the heap: each command
mutates the overlay buffer at reference `r` in place, exactly as
`ImageDraw.Draw(watermark_layer)` does.  The current overlay value is
threaded along and also returned. -/
def runOpsHeap (fe : FontEnv) : List DrawOp → Heap → Nat → PILImage →
    Heap × PILImage
  | [], h, _, cur => (h, cur)
  | op :: ops, h, r, cur =>
      let cur2 := execDrawOp fe cur op
      runOpsHeap fe ops (h.set r cur2) r cur2

/-- Heap-level embedding of `_apply_watermark`: the input buffer lives
at `ref`; `img.copy()` and `Image.new` allocate fresh buffers, the
draws mutate only the overlay buffer, and `alpha_composite` plus
`convert("RGB")` allocate the results.  Returns the final heap and the
reference of the returned buffer (`none` when the input reference is
dangling or PIL raises). -/
def applyWatermarkHeap (fe : FontEnv) (heap : Heap) (ref : Nat)
    (text : String) : Heap × Option Nat :=
  match heap[ref]? with
  | none => (heap, none)
  | some img =>
      let width := img.width
      let height := img.height
      let heap1 := heap ++ [img.copy]
      let layerRef := heap1.length
      let layer0 : PILImage :=
        { mode := Mode.RGBA, width := width, height := height,
          px := mkGrid width height ⟨0, 0, 0, 0⟩ }
      let heap2 := heap1 ++ [layer0]
      let st := runOpsHeap fe (applyWatermarkOps fe width height text)
        heap2 layerRef layer0
      match alphaComposite img.copy st.2 with
      | none => (st.1, none)
      | some wm =>
          let heap4 := st.1 ++ [wm]
          let heap5 := heap4 ++ [convert_RGB wm]
          (heap5, some heap4.length)

/-- Pixel coordinates a drawing command references: both corners of a
rectangle, the origin of a text draw. -/
def opCoords : DrawOp → List (Int × Int)
  | DrawOp.rect (x0, y0, x1, y1) _ => [(x0, y0), (x1, y1)]
  | DrawOp.text pos _ _ _ => [pos]

/-- Pixel coordinates the compositing of one request references: the
background-rectangle corners, the shadow origin and the text origin, as
computed by the drawing trace. -/
def referencedCoords (fe : FontEnv) (width height : Nat) (text : String) :
    List (Int × Int) :=
  (applyWatermarkOps fe width height text).flatMap opCoords

/-- Membership of a coordinate in the canvas `[0, w) x [0, h)`. -/
def inBoundsb (w h : Nat) (p : Int × Int) : Bool :=
  decide (0 ≤ p.1) && decide (p.1 < (w : Int)) &&
    decide (0 ≤ p.2) && decide (p.2 < (h : Int))

/-- Font of a drawing command, when it draws text. -/
def opFont : DrawOp → Option Font
  | DrawOp.rect _ _ => none
  | DrawOp.text _ _ f _ => some f

/-- Whether a drawing command is a text draw. -/
def isTextOp : DrawOp → Bool
  | DrawOp.rect _ _ => false
  | DrawOp.text _ _ _ _ => true

/-- Sample font environment whose measured text box is 10 by 5 pixels
and whose rasterizer covers nothing. -/
def fe0 : FontEnv :=
  { truetypeOk := true, bbox := fun _ _ => (0, 0, 10, 5),
    cover := fun _ _ _ _ => false }

/-- Sample font environment whose measured text box is 200 by 20
pixels, wider than a 100-pixel canvas. -/
def feWide : FontEnv :=
  { truetypeOk := true, bbox := fun _ _ => (0, 0, 200, 20),
    cover := fun _ _ _ _ => false }

/-- Sample opaque pixel. -/
def px1 : RGBA := ⟨10, 20, 30, 255⟩

/-- Sample one-by-one opaque RGBA image. -/
def img1 : PILImage :=
  { mode := Mode.RGBA, width := 1, height := 1, px := [[px1]] }

/-- Network stub that always raises. -/
def fetchFailure : String → FetchResult := fun _ => FetchResult.failure

/-- Network stub that always answers 404 with an empty body. -/
def fetchNotFound : String → FetchResult := fun _ => FetchResult.success 404 []

/-- Network stub that always answers 200 with a one-byte body. -/
def fetchOk : String → FetchResult := fun _ => FetchResult.success 200 [0]

/-- Decoder stub that rejects every payload. -/
def decodeNone : Bytes → Option PILImage := fun _ => none

/-- Claim C2: for every input image, the font size computed by the
compositor equals `max(24, width / 40)` pixels, it is the size of the
font both text draws use, and in particular width 960 gives size 24 and
width 4000 gives size 100. -/
theorem font_size_formula :
    (∀ w : Nat, font_size w = max 24 (w / 40)) ∧
    font_size 960 = 24 ∧ font_size 4000 = 100 ∧
    (∀ (fe : FontEnv) (w h : Nat) (t : String),
      (applyWatermarkOps fe w h t).map opFont =
        [none, some (pickFont fe (font_size w)), some (pickFont fe (font_size w))]) := by
  refine ⟨fun w => rfl, rfl, rfl, fun fe w h t => rfl⟩

/-- Claim C3: for every computed font size, the text padding computed
by the compositor equals `max(12, fontSize / 3)` pixels, and in
particular font size 100 gives padding 33. -/
theorem text_padding_formula :
    (∀ fs : Nat, text_padding fs = max 12 (fs / 3)) ∧ text_padding 100 = 33 := by
  exact ⟨fun fs => rfl, rfl⟩

/-- Claim C4: for every input image and text, the label text draw of
the compositor is anchored at `x = width - textW - padding` and
`y = height - textH - padding`, where `(textW, textH)` is the measured
text bounding box: bottom-right placement. -/
theorem anchor_bottom_right :
    (∀ (w : Nat) (tw : Int) (pad : Nat),
      anchor_x w tw pad = (w : Int) - tw - (pad : Int)) ∧
    (∀ (h : Nat) (th : Int) (pad : Nat),
      anchor_y h th pad = (h : Int) - th - (pad : Int)) ∧
    (∀ (fe : FontEnv) (w h : Nat) (t : String),
      (applyWatermarkOps fe w h t)[2]? =
        some (DrawOp.text
          (anchor_x w (text_w (fe.bbox (pickFont fe (font_size w)) t))
            (text_padding (font_size w)),
           anchor_y h (text_h (fe.bbox (pickFont fe (font_size w)) t))
            (text_padding (font_size w)))
          t (pickFont fe (font_size w)) ⟨255, 255, 255, 220⟩)) := by
  exact ⟨fun w tw pad => rfl, fun h th pad => rfl, fun fe w h t => rfl⟩

/-- Claim C5: for every input image and text, the compositor fills a
background rectangle spanning `[x - padX, y - padY]` to
`[x + textW + padX, y + textH + padY]`, with `padX = padding / 2` and
`padY = padding / 3` in integer division, in black at alpha 90/255. -/
theorem background_plate_geometry :
    (∀ pad : Nat, bg_padding_x pad = pad / 2 ∧ bg_padding_y pad = pad / 3) ∧
    (∀ (fe : FontEnv) (w h : Nat) (t : String),
      (applyWatermarkOps fe w h t)[0]? =
        some (DrawOp.rect
          (anchor_x w (text_w (fe.bbox (pickFont fe (font_size w)) t))
             (text_padding (font_size w)) -
           (bg_padding_x (text_padding (font_size w)) : Int),
           anchor_y h (text_h (fe.bbox (pickFont fe (font_size w)) t))
             (text_padding (font_size w)) -
           (bg_padding_y (text_padding (font_size w)) : Int),
           anchor_x w (text_w (fe.bbox (pickFont fe (font_size w)) t))
             (text_padding (font_size w)) +
           text_w (fe.bbox (pickFont fe (font_size w)) t) +
           (bg_padding_x (text_padding (font_size w)) : Int),
           anchor_y h (text_h (fe.bbox (pickFont fe (font_size w)) t))
             (text_padding (font_size w)) +
           text_h (fe.bbox (pickFont fe (font_size w)) t) +
           (bg_padding_y (text_padding (font_size w)) : Int))
          ⟨0, 0, 0, 90⟩)) := by
  exact ⟨fun pad => ⟨rfl, rfl⟩, fun fe w h t => rfl⟩

/-- Claim C6: for every input image and text, the compositor draws the
text exactly twice on the overlay: a shadow at `(x + offset, y + offset)`
in black at alpha 200/255 and the label at `(x, y)` in white at alpha
220/255, where `offset = max(1, fontSize / 20)`. -/
theorem shadow_and_label_draws :
    (∀ fs : Nat, shadow_offset fs = max 1 (fs / 20)) ∧
    (∀ (fe : FontEnv) (w h : Nat) (t : String),
      ((applyWatermarkOps fe w h t).filter isTextOp).length = 2 ∧
      (applyWatermarkOps fe w h t)[1]? =
        some (DrawOp.text
          (anchor_x w (text_w (fe.bbox (pickFont fe (font_size w)) t))
             (text_padding (font_size w)) +
           (shadow_offset (font_size w) : Int),
           anchor_y h (text_h (fe.bbox (pickFont fe (font_size w)) t))
             (text_padding (font_size w)) +
           (shadow_offset (font_size w) : Int))
          t (pickFont fe (font_size w)) ⟨0, 0, 0, 200⟩) ∧
      (applyWatermarkOps fe w h t)[2]? =
        some (DrawOp.text
          (anchor_x w (text_w (fe.bbox (pickFont fe (font_size w)) t))
             (text_padding (font_size w)),
           anchor_y h (text_h (fe.bbox (pickFont fe (font_size w)) t))
             (text_padding (font_size w)))
          t (pickFont fe (font_size w)) ⟨255, 255, 255, 220⟩)) := by
  exact ⟨fun fs => rfl, fun fe w h t => ⟨rfl, rfl, rfl⟩⟩

/-- Claim C10: the default watermark text is used both when the text
query parameter is absent and when it is the empty string; any truthy
string is kept, and the endpoint behaves identically on an empty string
and on an absent parameter. -/
theorem default_text_on_falsy :
    wm_text none = default_text ∧ wm_text (some "") = default_text ∧
    (∀ s : String, s ≠ "" → wm_text (some s) = s) ∧
    (∀ (fetch : String → FetchResult) (decode : Bytes → Option PILImage)
      (fe : FontEnv) (url : String),
      watermark_image fetch decode fe url (some "") =
        watermark_image fetch decode fe url none) := by
  refine ⟨rfl, rfl, fun s hs => ?_, fun fetch decode fe url => rfl⟩
  simp [wm_text, hs]

/-- Witness for claim C10 at a concrete truthy string. -/
theorem default_text_on_falsy_witness :
    wm_text (some "wallpaper") = "wallpaper" :=
  default_text_on_falsy.2.2.1 "wallpaper" (by decide)

/-- Claim C8: a URL whose scheme is not http or https fails with
HTTP 400 without the fetch ever being attempted; a raised fetch, a
non-200 response and an undecodable payload each fail with HTTP 400 and
a short detail string, after the fetch. -/
theorem loader_error_handling :
    (∀ (fetch : String → FetchResult) (decode : Bytes → Option PILImage)
      (url : String),
      ¬(urlScheme url = "http" ∨ urlScheme url = "https") →
      loadImageFromUrl fetch decode url =
        ⟨Except.error ⟨400, "Unable to load image from URL"⟩, false⟩) ∧
    (∀ (fetch : String → FetchResult) (decode : Bytes → Option PILImage)
      (url : String),
      (urlScheme url = "http" ∨ urlScheme url = "https") →
      fetch url = FetchResult.failure →
      loadImageFromUrl fetch decode url =
        ⟨Except.error ⟨400, "Unable to load image from URL"⟩, true⟩) ∧
    (∀ (fetch : String → FetchResult) (decode : Bytes → Option PILImage)
      (url : String) (status : Nat) (content : Bytes),
      (urlScheme url = "http" ∨ urlScheme url = "https") →
      fetch url = FetchResult.success status content → status ≠ 200 →
      loadImageFromUrl fetch decode url =
        ⟨Except.error ⟨400, "Failed to fetch source image"⟩, true⟩) ∧
    (∀ (fetch : String → FetchResult) (decode : Bytes → Option PILImage)
      (url : String) (content : Bytes),
      (urlScheme url = "http" ∨ urlScheme url = "https") →
      fetch url = FetchResult.success 200 content → decode content = none →
      loadImageFromUrl fetch decode url =
        ⟨Except.error ⟨400, "Unable to load image from URL"⟩, true⟩) := by
  refine ⟨fun fetch decode url hs => ?_, fun fetch decode url hs hf => ?_,
    fun fetch decode url status content hs hf h200 => ?_,
    fun fetch decode url content hs hf hd => ?_⟩
  · simp [loadImageFromUrl, hs]
  · simp [loadImageFromUrl, hs, hf]
  · simp [loadImageFromUrl, hs, hf, h200]
  · simp [loadImageFromUrl, hs, hf, hd]

/-- Witness for claim C8 on concrete stubs: an ftp URL is rejected
with no fetch, and a raised fetch, a 404 response and an undecodable
body each give a 400 after the fetch. -/
theorem loader_error_handling_witness :
    loadImageFromUrl fetchFailure decodeNone "ftp://example.com" =
      ⟨Except.error ⟨400, "Unable to load image from URL"⟩, false⟩ ∧
    loadImageFromUrl fetchFailure decodeNone "http://example.com" =
      ⟨Except.error ⟨400, "Unable to load image from URL"⟩, true⟩ ∧
    loadImageFromUrl fetchNotFound decodeNone "http://example.com" =
      ⟨Except.error ⟨400, "Failed to fetch source image"⟩, true⟩ ∧
    loadImageFromUrl fetchOk decodeNone "https://example.com" =
      ⟨Except.error ⟨400, "Unable to load image from URL"⟩, true⟩ :=
  ⟨loader_error_handling.1 fetchFailure decodeNone "ftp://example.com" (by decide),
   loader_error_handling.2.1 fetchFailure decodeNone "http://example.com"
     (by decide) rfl,
   loader_error_handling.2.2.1 fetchNotFound decodeNone "http://example.com"
     404 [] (by decide) rfl (by decide),
   loader_error_handling.2.2.2 fetchOk decodeNone "https://example.com"
     [0] (by decide) rfl rfl⟩

/-- Shadow offset is always strictly smaller than the text padding, for
every font size. -/
theorem shadow_lt_padding (fs : Nat) : shadow_offset fs < text_padding fs := by
  unfold shadow_offset text_padding
  omega

/-- Counterexample to claim C9 as stated: with a 100 by 100 canvas and
a measured text box 200 pixels wide (wider than the image), the
compositing references coordinates outside `[0, width) x [0, height)`
— the anchor x is 100 - 200 - 12 = -112, so nothing is clamped. -/
theorem coords_in_bounds_counterexample :
    (referencedCoords feWide 100 100 default_text).all (inBoundsb 100 100) = false := by
  rfl

/-- Amended claim C9: every pixel coordinate referenced during
compositing (the background-rectangle corners, the text origin and the
shadow origin) lies within `[0, width) x [0, height)` provided the
measured text box is nonnegative and fits in the canvas together with
its padding; when the text is wider than that, the coordinates are not
clamped and fall outside the canvas. -/
theorem coords_in_bounds_when_text_fits (fe : FontEnv) (w h : Nat) (t : String)
    (htw : 0 ≤ text_w (fe.bbox (pickFont fe (font_size w)) t))
    (hth : 0 ≤ text_h (fe.bbox (pickFont fe (font_size w)) t))
    (hw : text_w (fe.bbox (pickFont fe (font_size w)) t) +
      (text_padding (font_size w) : Int) +
      (bg_padding_x (text_padding (font_size w)) : Int) ≤ (w : Int))
    (hh : text_h (fe.bbox (pickFont fe (font_size w)) t) +
      (text_padding (font_size w) : Int) +
      (bg_padding_y (text_padding (font_size w)) : Int) ≤ (h : Int)) :
    (referencedCoords fe w h t).all (inBoundsb w h) = true := by
  have h12 : 12 ≤ text_padding (font_size w) := Nat.le_max_left _ _
  have hoff : shadow_offset (font_size w) < text_padding (font_size w) :=
    shadow_lt_padding _
  have hbpx : bg_padding_x (text_padding (font_size w)) * 2 ≤
      text_padding (font_size w) := Nat.div_mul_le_self _ _
  have hbpy : bg_padding_y (text_padding (font_size w)) * 3 ≤
      text_padding (font_size w) := Nat.div_mul_le_self _ _
  simp only [referencedCoords, applyWatermarkOps, opCoords, List.flatMap,
    List.map, List.flatten, List.all, inBoundsb, List.append_nil,
    Bool.and_eq_true, decide_eq_true_eq, anchor_x, anchor_y]
  repeat' apply And.intro
  all_goals first | trivial | omega

/-- Witness for the amended claim C9: a 10 by 5 text box on a 100 by
100 canvas fits, and every referenced coordinate is on the canvas. -/
theorem coords_in_bounds_when_text_fits_witness :
    (0 ≤ text_w (fe0.bbox (pickFont fe0 (font_size 100)) default_text) ∧
     0 ≤ text_h (fe0.bbox (pickFont fe0 (font_size 100)) default_text) ∧
     text_w (fe0.bbox (pickFont fe0 (font_size 100)) default_text) +
       (text_padding (font_size 100) : Int) +
       (bg_padding_x (text_padding (font_size 100)) : Int) ≤ (100 : Int) ∧
     text_h (fe0.bbox (pickFont fe0 (font_size 100)) default_text) +
       (text_padding (font_size 100) : Int) +
       (bg_padding_y (text_padding (font_size 100)) : Int) ≤ (100 : Int)) ∧
    (referencedCoords fe0 100 100 default_text).all (inBoundsb 100 100) = true :=
  ⟨⟨by decide, by decide, by decide, by decide⟩,
   coords_in_bounds_when_text_fits fe0 100 100 default_text
     (by decide) (by decide) (by decide) (by decide)⟩

/-- Length of an indexed map is the length of the underlying list. -/
theorem length_mapWithIdx {α β : Type} (f : Nat → α → β) :
    ∀ (l : List α) (n : Nat), (mapWithIdx f l n).length = l.length
  | [], _ => rfl
  | _ :: as, n => by simp [mapWithIdx, length_mapWithIdx f as (n + 1)]

/-- Every element of an indexed map satisfies any property the mapped
function guarantees on the elements of the underlying list. -/
theorem mapWithIdx_forall {α β : Type} (f : Nat → α → β) (P : β → Prop) :
    ∀ (l : List α) (n : Nat), (∀ k a, a ∈ l → P (f k a)) →
      ∀ b ∈ mapWithIdx f l n, P b
  | [], _, _ => by simp [mapWithIdx]
  | a :: as, n, h => by
      simp only [mapWithIdx, List.mem_cons]
      rintro b (rfl | hb)
      · exact h n a (List.mem_cons_self a as)
      · exact mapWithIdx_forall f P as (n + 1)
          (fun k x hx => h k x (List.mem_cons_of_mem a hx)) b hb

/-- Pointwise grid update preserves the number of rows. -/
theorem gridMap_length (f : Nat → Nat → RGBA → RGBA) (g : Grid) :
    (gridMap f g).length = g.length :=
  length_mapWithIdx _ g 0

/-- Pointwise grid update preserves the length of every row. -/
theorem gridMap_rows (f : Nat → Nat → RGBA → RGBA) (g : Grid) (w : Nat)
    (h : ∀ r ∈ g, r.length = w) : ∀ r ∈ gridMap f g, r.length = w := by
  refine mapWithIdx_forall _ _ g 0 (fun k a ha => ?_)
  simpa [length_mapWithIdx] using h a ha

/-- One drawing command changes only pixel values: mode, size and grid
shape are untouched. -/
theorem execDrawOp_preserves (fe : FontEnv) (img : PILImage) (op : DrawOp) :
    (execDrawOp fe img op).mode = img.mode ∧
    (execDrawOp fe img op).width = img.width ∧
    (execDrawOp fe img op).height = img.height ∧
    (execDrawOp fe img op).px.length = img.px.length ∧
    ∀ w, (∀ r ∈ img.px, r.length = w) →
      ∀ r ∈ (execDrawOp fe img op).px, r.length = w := by
  cases op with
  | rect coords c =>
      obtain ⟨x0, y0, x1, y1⟩ := coords
      exact ⟨rfl, rfl, rfl, gridMap_length _ _, fun w h => gridMap_rows _ _ w h⟩
  | text pos s font c =>
      obtain ⟨tx, ty⟩ := pos
      exact ⟨rfl, rfl, rfl, gridMap_length _ _, fun w h => gridMap_rows _ _ w h⟩

/-- Running a list of drawing commands changes only pixel values. -/
theorem foldl_execDrawOp_preserves (fe : FontEnv) :
    ∀ (ops : List DrawOp) (img : PILImage),
    ((ops.foldl (execDrawOp fe) img).mode = img.mode ∧
     (ops.foldl (execDrawOp fe) img).width = img.width ∧
     (ops.foldl (execDrawOp fe) img).height = img.height ∧
     (ops.foldl (execDrawOp fe) img).px.length = img.px.length) ∧
    ∀ w, (∀ r ∈ img.px, r.length = w) →
      ∀ r ∈ (ops.foldl (execDrawOp fe) img).px, r.length = w
  | [], img => ⟨⟨rfl, rfl, rfl, rfl⟩, fun _ h => h⟩
  | op :: ops, img => by
      obtain ⟨⟨h1, h2, h3, h4⟩, h5⟩ :=
        foldl_execDrawOp_preserves fe ops (execDrawOp fe img op)
      obtain ⟨g1, g2, g3, g4, g5⟩ := execDrawOp_preserves fe img op
      refine ⟨⟨?_, ?_, ?_, ?_⟩, ?_⟩
      · simpa [g1] using h1
      · simpa [g2] using h2
      · simpa [g3] using h3
      · simpa [g4] using h4
      · exact fun w hw => h5 w (g5 w hw)

/-- Alpha compositing two grids whose rows all have width `w` yields
rows of width `w`. -/
theorem zipWith_rows_len (w : Nat) :
    ∀ (l1 l2 : Grid), (∀ r ∈ l1, r.length = w) → (∀ r ∈ l2, r.length = w) →
      ∀ r ∈ List.zipWith (List.zipWith alphaOver) l1 l2, r.length = w
  | [], _, _, _ => by simp
  | _ :: _, [], _, _ => by simp
  | a :: as, b :: bs, h1, h2 => by
      simp only [List.zipWith, List.mem_cons]
      rintro r (rfl | hr)
      · rw [List.length_zipWith, h1 a (by simp), h2 b (by simp)]
        exact Nat.min_self w
      · exact zipWith_rows_len w as bs
          (fun x hx => h1 x (List.mem_cons_of_mem a hx))
          (fun x hx => h2 x (List.mem_cons_of_mem b hx)) r hr

/-- Well-formedness of a buffer, spelled out as a proposition. -/
theorem wfb_iff (img : PILImage) :
    img.wfb = true ↔
      img.px.length = img.height ∧ ∀ r ∈ img.px, r.length = img.width := by
  simp [PILImage.wfb, List.all_eq_true]

/-- Claim C1: on every well-formed RGBA input (the loader always hands
the compositor one), the compositor succeeds and returns an image of
identical width and height whose mode is RGB, whose grid is a full
width-by-height grid, and whose every stored alpha is fully opaque: an
RGB buffer with no alpha channel. -/
theorem composite_same_size_rgb (fe : FontEnv) (img : PILImage) (text : String)
    (hmode : img.mode = Mode.RGBA) (hwf : img.wfb = true) :
    ∃ out, applyWatermark fe img text = some out ∧
      out.width = img.width ∧ out.height = img.height ∧
      out.mode = Mode.RGB ∧ out.wfb = true ∧
      (out.px.all fun row => row.all fun p => p.a == 255) = true := by
  obtain ⟨hlen, hrows⟩ := (wfb_iff img).mp hwf
  set layer0 : PILImage :=
    { mode := Mode.RGBA, width := img.width, height := img.height,
      px := mkGrid img.width img.height ⟨0, 0, 0, 0⟩ } with hlayer0
  obtain ⟨⟨m1, m2, m3, m4⟩, m5⟩ := foldl_execDrawOp_preserves fe
    (applyWatermarkOps fe img.width img.height text) layer0
  set layer := (applyWatermarkOps fe img.width img.height text).foldl
    (execDrawOp fe) layer0 with hlayer
  have hl0len : layer0.px.length = img.height := by
    simp [hlayer0, mkGrid]
  have hl0rows : ∀ r ∈ layer0.px, r.length = img.width := by
    intro r hr
    simp only [hlayer0, mkGrid, List.mem_replicate] at hr
    simp [hr.2]
  have hlrows : ∀ r ∈ layer.px, r.length = img.width := m5 _ hl0rows
  have hllen : layer.px.length = img.height := by rw [m4, hl0len]
  have hcond : img.copy.mode = Mode.RGBA ∧ layer.mode = Mode.RGBA ∧
      img.copy.width = layer.width ∧ img.copy.height = layer.height := by
    refine ⟨hmode, by rw [m1], by rw [m2]; exact rfl, by rw [m3]; exact rfl⟩
  refine ⟨convert_RGB
    { mode := Mode.RGBA, width := img.copy.width, height := img.copy.height,
      px := List.zipWith (List.zipWith alphaOver) img.copy.px layer.px },
    ?_, ?_, ?_, rfl, ?_, ?_⟩
  · simp only [applyWatermark, ← hlayer0, ← hlayer, alphaComposite,
      if_pos hcond, Option.map_some']
  · rfl
  · rfl
  · rw [wfb_iff]
    constructor
    · simp only [convert_RGB, List.length_map, List.length_zipWith]
      rw [hllen]
      show min img.px.length img.height = img.height
      rw [hlen, Nat.min_self]
    · intro r hr
      simp only [convert_RGB, List.mem_map] at hr
      obtain ⟨r0, hr0, rfl⟩ := hr
      rw [List.length_map]
      exact zipWith_rows_len img.width img.copy.px layer.px hrows hlrows r0 hr0
  · simp [convert_RGB, List.all_eq_true]

/-- Witness for claim C1 on a concrete one-pixel RGBA image. -/
theorem composite_same_size_rgb_witness :
    img1.mode = Mode.RGBA ∧ img1.wfb = true ∧
    ∃ out, applyWatermark fe0 img1 "x" = some out ∧
      out.width = img1.width ∧ out.height = img1.height ∧
      out.mode = Mode.RGB ∧ out.wfb = true ∧
      (out.px.all fun row => row.all fun p => p.a == 255) = true :=
  ⟨rfl, by decide, composite_same_size_rgb fe0 img1 "x" rfl (by decide)⟩

/-- Replaying the drawing commands never changes the number of live
buffers: the draws mutate in place. -/
theorem runOpsHeap_length (fe : FontEnv) :
    ∀ (ops : List DrawOp) (h : Heap) (r : Nat) (cur : PILImage),
      ((runOpsHeap fe ops h r cur).1).length = h.length
  | [], _, _, _ => rfl
  | op :: ops, h, r, cur => by
      rw [runOpsHeap, runOpsHeap_length fe ops _ r _, List.length_set]

/-- Replaying the drawing commands touches no buffer other than the
overlay buffer they are aimed at. -/
theorem runOpsHeap_get (fe : FontEnv) :
    ∀ (ops : List DrawOp) (h : Heap) (r : Nat) (cur : PILImage) (i : Nat),
      i ≠ r → ((runOpsHeap fe ops h r cur).1)[i]? = h[i]?
  | [], _, _, _, _, _ => rfl
  | op :: ops, h, r, cur, i, hne => by
      rw [runOpsHeap, runOpsHeap_get fe ops _ r _ i hne,
        List.getElem?_set_ne (Ne.symm hne)]

/-- Claim C7: across a whole compositing run the input buffer is left
unchanged in the heap — the compositor works on an explicit copy and on
freshly allocated buffers — and the returned reference, when the run
succeeds, is a fresh allocation, never an alias of a pre-existing
buffer. -/
theorem watermark_no_mutation (fe : FontEnv) (heap : Heap) (ref : Nat)
    (text : String) :
    ((applyWatermarkHeap fe heap ref text).1)[ref]? = heap[ref]? ∧
    ∀ r, (applyWatermarkHeap fe heap ref text).2 = some r →
      heap.length ≤ r := by
  cases himg : heap[ref]? with
  | none =>
      constructor
      · simp [applyWatermarkHeap, himg]
      · intro r hr
        simp [applyWatermarkHeap, himg] at hr
  | some img =>
      have hlt : ref < heap.length := by
        by_contra hcon
        rw [List.getElem?_eq_none (Nat.le_of_not_lt hcon)] at himg
        exact Option.noConfusion himg
      have hne : ref ≠ (heap ++ [img.copy]).length := by
        simp only [List.length_append, List.length_cons, List.length_nil]
        omega
      have happ : ∀ b : PILImage,
          ((heap ++ [img.copy]) ++ [b])[ref]? = heap[ref]? := by
        intro b
        rw [List.getElem?_append, if_pos (by simp only [List.length_append,
          List.length_cons, List.length_nil]; omega),
          List.getElem?_append, if_pos hlt]
      simp only [applyWatermarkHeap, himg]
      cases hac : alphaComposite img.copy
          (runOpsHeap fe (applyWatermarkOps fe img.width img.height text)
            ((heap ++ [img.copy]) ++
              [{ mode := Mode.RGBA, width := img.width, height := img.height,
                 px := mkGrid img.width img.height ⟨0, 0, 0, 0⟩ }])
            (heap ++ [img.copy]).length
            { mode := Mode.RGBA, width := img.width, height := img.height,
              px := mkGrid img.width img.height ⟨0, 0, 0, 0⟩ }).2 with
      | none =>
          simp only [hac]
          refine ⟨?_, fun r hr => by simp at hr⟩
          rw [runOpsHeap_get fe _ _ _ _ ref hne]
          exact (happ _).trans himg
      | some wm =>
          simp only [hac]
          constructor
          · rw [List.getElem?_append, if_pos (by
              rw [List.length_append, List.length_append, runOpsHeap_length]
              simp only [List.length_append, List.length_cons, List.length_nil]
              omega)]
            rw [List.getElem?_append, if_pos (by
              rw [runOpsHeap_length]
              simp only [List.length_append, List.length_cons, List.length_nil]
              omega)]
            rw [runOpsHeap_get fe _ _ _ _ ref hne]
            exact (happ _).trans himg
          · intro r hr
            simp only [Option.some_inj] at hr
            rw [← hr, List.length_append, runOpsHeap_length]
            simp only [List.length_append, List.length_cons, List.length_nil]
            omega

/-- Witness for claim C7 on a one-buffer heap: the input buffer is
untouched and the returned reference is fresh. -/
theorem watermark_no_mutation_witness :
    ((applyWatermarkHeap fe0 [img1] 0 "x").1)[0]? = [img1][0]? ∧
    List.length [img1] ≤ 4 :=
  ⟨(watermark_no_mutation fe0 [img1] 0 "x").1,
   (watermark_no_mutation fe0 [img1] 0 "x").2 4 (by decide)⟩

end Wallpapers
